import Mathlib

/-!
Shallow embedding of `src/modules/tripleliftBidAdapter.js`, the Triplelift
bid adapter of this Prebid.js tree.

JavaScript values that may be `undefined` are embedded as `Option` fields;
JS string truthiness (`undefined` and `""` are falsy) is `truthyStr`.
Steps of the adapter that can raise a `TypeError` (a property read on
`undefined`) are embedded in `Except String`, and the diagnostic log calls
(`utils.logError`, `utils.logWarn`) are collected in a `List String` so that
log-count facts can be stated.  Helper functions of Prebid's shared
`src/utils.js` are not part of this tree; each such helper is introduced
below with a doc comment beginning `Modelled from the spec:`.
-/

namespace Triplelift

/-- JS truthiness of an optional string field: `undefined` and `""` are falsy,
any other string is truthy. -/
def truthyStr : Option String → Bool
  | none => false
  | some s => s != ""

/-- The `params` object of a Triplelift bid request (`bid.params` in the
adapter).  Scalar params arrive as strings; an absent param is `none`. -/
structure TLParams where
  inventoryCode : Option String
  member : Option String
  invCode : Option String
  floor : Option String
deriving DecidableEq, Repr

/-- One bid request handed to the adapter by the framework. -/
structure TLBidRequest where
  params : TLParams
  sizes : List (Nat × Nat)
deriving DecidableEq, Repr

/-- `spec.isBidRequestValid` (source lines 42-45):
`!!(bid.params.inventoryCode || (bid.params.member && bid.params.invCode))`.
The function only reads `bid`; the embedding is a pure predicate. -/
def isBidRequestValid (bid : TLBidRequest) : Bool :=
  truthyStr bid.params.inventoryCode ||
    (truthyStr bid.params.member && truthyStr bid.params.invCode)

/-- Browser environment consulted by `isFlashEnabled` (source lines 129-143):
the outcome of `new window.ActiveXObject('ShockwaveFlash.ShockwaveFlash')`
(`none` when the constructor throws, `some b` when it returns a value of
truthiness `b`), and the `navigator.mimeTypes` fallback probed inside the
`catch` block. -/
structure FlashEnv where
  activeXResult : Option Bool
  mimeTypesPresent : Bool
  swfMimeTypeDefined : Bool
  swfEnabledPlugin : Bool
deriving DecidableEq, Repr

/-- `isFlashEnabled` (source lines 129-143).  `hasFlash` starts at `0`; the
`try` block sets it to `1` when the ActiveX probe returns a truthy object;
when the probe throws, the `catch` block sets it to `1` if
`navigator.mimeTypes` exists, its `application/x-shockwave-flash` entry is
defined, and that entry's `enabledPlugin` is truthy. -/
def isFlashEnabled (env : FlashEnv) : Nat :=
  match env.activeXResult with
  | some fo => if fo then 1 else 0
  | none =>
    if env.mimeTypesPresent && env.swfMimeTypeDefined && env.swfEnabledPlugin
    then 1 else 0

/-- Page environment read by `buildRequests`: `document.location.protocol`
(for example `"https:"`) and the top-window URL returned by
`utils.getTopWindowUrl` (empty when unavailable). -/
structure PageEnv where
  protocol : String
  referrer : String
deriving DecidableEq, Repr

/-- Modelled from the spec: `utils.tryAppendQueryString` of Prebid's shared
`src/utils.js`, which is not part of this tree — each parameter is appended
as `key=value&` only if its value is non-empty, otherwise the URL is
returned unchanged. -/
def tryAppendQueryString (url key value : String) : String :=
  if value != "" then url ++ key ++ "=" ++ value ++ "&" else url

/-- Modelled from the spec: `utils.parseSizesInput` of Prebid's shared
`src/utils.js`, which is not part of this tree — the size list is serialized
as `WxH,WxH,...`; an empty list serializes to the empty string. -/
def parseSizesInput (sizes : List (Nat × Nat)) : String :=
  String.intercalate "," (sizes.map fun s => toString s.1 ++ "x" ++ toString s.2)

/-- Whether the last character of `s` is `c` — the check
`s.lastIndexOf(c) === s.length - 1` of the source for a one-character `c`. -/
def lastCharIs (s : String) (c : Char) : Bool :=
  match s.toList.getLast? with
  | some x => x == c
  | none => false

/-- `s.substring(0, s.length - 1)`: drop the last character. -/
def dropLastChar (s : String) : String :=
  String.mk s.toList.dropLast

/-- `spec.buildRequests` (source lines 53-94).  Only `bidRequests[0]` is
consulted (`none` models the `TypeError` on an empty list).  The query is
built by `tryAppendQueryString` for `lib`, `v`, `inv_code`, `floor`, `fe`,
then the `size=` parameter when the serialized size list is non-empty, then
`referrer`, and one trailing `&` is trimmed.  The `fe` value is the number
returned by `isFlashEnabled`; in JS the number `0` is falsy, so
`tryAppendQueryString` skips the parameter exactly when the flag is `0`,
embedded here by passing `""` in that case.  The `startTime` stamp written
onto `bidRequests[0]` is a latency instrument and is not modelled. -/
def buildRequests (fenv : FlashEnv) (env : PageEnv)
    (bidRequests : List TLBidRequest) : Option String :=
  match bidRequests with
  | [] => none
  | first :: _ =>
    let inventoryCode := first.params.inventoryCode.getD ""
    let floor := first.params.floor.getD ""
    let tlCall := env.protocol ++ "//tlx.3lift.com/header/auction?"
    let tlCall := tryAppendQueryString tlCall "lib" "prebid"
    let tlCall := tryAppendQueryString tlCall "v" "$prebid.version$"
    let tlCall := tryAppendQueryString tlCall "inv_code" inventoryCode
    let tlCall := tryAppendQueryString tlCall "floor" floor
    let tlCall := tryAppendQueryString tlCall "fe"
      (if isFlashEnabled fenv = 0 then "" else toString (isFlashEnabled fenv))
    let sizeQueryString := parseSizesInput first.sizes
    let tlCall :=
      if sizeQueryString != "" then tlCall ++ "size=" ++ sizeQueryString ++ "&"
      else tlCall
    let tlCall := tryAppendQueryString tlCall "referrer" env.referrer
    let tlCall :=
      if lastCharIs tlCall '&' then dropLastChar tlCall else tlCall
    some tlCall

/-- Whether `p` is a prefix of `s` (over character lists). -/
def isPrefList : List Char → List Char → Bool
  | [], _ => true
  | _ :: _, [] => false
  | p :: ps, c :: cs => p == c && isPrefList ps cs

/-- Whether `pat` occurs as a contiguous run inside `s`. -/
def hasSubList (pat : List Char) : List Char → Bool
  | [] => isPrefList pat []
  | c :: rest => isPrefList pat (c :: rest) || hasSubList pat rest

/-- Whether the string `pat` occurs as a substring of `s`. -/
def strHasSub (s pat : String) : Bool :=
  hasSubList pat.toList s.toList

/-- The suffix of `l` after the first occurrence of `c`, when there is one. -/
def afterChar (c : Char) : List Char → Option (List Char)
  | [] => none
  | x :: xs => if x == c then some xs else afterChar c xs

/-- Split a character list on a separator character. -/
def splitOnChar (c : Char) : List Char → List (List Char)
  | [] => [[]]
  | x :: xs =>
    let r := splitOnChar c xs
    if x == c then [] :: r
    else
      match r with
      | [] => [[x]]
      | y :: ys => (x :: y) :: ys

/-- The query-parameter keys of a URL: the part after the first `?`, split on
`&`, each piece truncated at its `=`. -/
def queryKeys (url : String) : List String :=
  match afterChar '?' url.toList with
  | none => []
  | some q =>
    (splitOnChar '&' q).map fun p => String.mk (p.takeWhile fun ch => ch != '=')

/-- `SUPPORTED_AD_TYPES` (source line 10). -/
def SUPPORTED_AD_TYPES : List String := ["banner", "video", "native"]

/-- The video payload of an RtbBid (`rtbBid.rtb.video`). -/
structure VideoPayload where
  player_width : Nat
  player_height : Nat
  asset_url : String
deriving DecidableEq, Repr

/-- The `link` object of a native payload. -/
structure NativeLink where
  url : String
  click_trackers : List String
deriving DecidableEq, Repr

/-- An image or icon descriptor of a native payload; every field may be
absent. -/
structure NativeImg where
  url : Option String
  height : Option Nat
  width : Option Nat
deriving DecidableEq, Repr

/-- The native payload of an RtbBid (`rtbBid.rtb.native`).  `link` may be
absent, in which case `newBid` raises a `TypeError` reading `link.url`. -/
structure NativePayload where
  title : Option String
  desc : Option String
  ctatext : Option String
  sponsored : Option String
  main_img : Option NativeImg
  icon : Option NativeImg
  link : Option NativeLink
  impression_trackers : Option (List String)
deriving DecidableEq, Repr

/-- The banner payload of an RtbBid (`rtbBid.rtb.banner`). -/
structure BannerPayload where
  width : Nat
  height : Nat
  content : String
deriving DecidableEq, Repr

/-- One tracker entry of `rtbBid.rtb.trackers`. -/
structure Tracker where
  impression_urls : List String
deriving DecidableEq, Repr

/-- The `rtb` object of an ad.  In JS an `rtb` object is truthy whenever it
is present, whichever payloads it holds. -/
structure Rtb where
  video : Option VideoPayload
  nativeP : Option NativePayload
  banner : Option BannerPayload
  trackers : Option (List Tracker)
deriving DecidableEq, Repr

/-- One entry of a server tag's `ads` array.  The ad that carries the `rtb`
object is what the adapter calls `rtbBid`. -/
structure Ad where
  rtb : Option Rtb
  cpm : Rat
  creative_id : Option String
  deal_id : Option String
  ad_type : String
  renderer_id : Option String
  renderer_url : Option String
deriving DecidableEq, Repr

/-- One `ServerTag` of the response body. -/
structure ServerTag where
  uuid : Option String
  ads : Option (List Ad)
deriving DecidableEq, Repr

/-- The parsed JSON response body: `{ error?, tags? }`. -/
structure ResponseBody where
  error : Option String
  tags : Option (List ServerTag)
deriving DecidableEq, Repr

/-- The auction context destructured by `interpretResponse` as
`{bidderRequest}`. -/
structure BidderRequest where
  bidderCode : String
deriving DecidableEq, Repr

/-- `getRtbBid` (source lines 371-373):
`tag && tag.ads && tag.ads.length && find(tag.ads, ad => ad.rtb)`.
The chain is falsy — no candidate — when `ads` is absent or empty, and
otherwise yields the first ad whose `rtb` field is truthy (present). -/
def getRtbBid (tag : ServerTag) : Option Ad :=
  match tag.ads with
  | none => none
  | some ads => if ads.length = 0 then none else ads.find? fun ad => ad.rtb.isSome

/-- Modelled from the spec: the renderer handle installed by
`Renderer.install` (Prebid's shared `src/Renderer.js`, not part of this
tree) — an outstream playback handle recording the RtbBid's renderer id and
URL.  The render/event callbacks it wires are opaque behaviour of the host
page and are not modelled. -/
structure RendererHandle where
  id : Option String
  url : Option String
deriving DecidableEq, Repr

/-- `newRenderer` (source lines 145-168), restricted to the data it stores:
the handle is installed with `id: rtbBid.renderer_id, url:
rtbBid.renderer_url`; a `setRender` failure is caught and logged, never
propagated. -/
def newRenderer (rtbBid : Ad) : RendererHandle :=
  { id := rtbBid.renderer_id, url := rtbBid.renderer_url }

/-- The native asset bundle placed on a normalized bid (`bid.native`). -/
structure NativeOut where
  title : Option String
  body : Option String
  cta : Option String
  sponsoredBy : Option String
  image : NativeImg
  icon : NativeImg
  clickUrl : String
  clickTrackers : List String
  impressionTrackers : Option (List String)
deriving DecidableEq, Repr

/-- The `adResponse` attached to an outstream video bid.  The source aliases
`bid.adResponse = serverBid` and then mutates it:
`bid.adResponse.ad = bid.adResponse.ads[0]` and
`bid.adResponse.ad.video = bid.adResponse.ad.rtb.video`; the embedding
records the resulting snapshot. -/
structure AdResponse where
  tag : ServerTag
  ad : Ad
  adVideo : Option VideoPayload
deriving DecidableEq, Repr

/-- A normalized Prebid bid (the output of `newBid`, plus the `mediaType`
stamped by `interpretResponse`). -/
structure Bid where
  requestId : Option String
  cpm : Rat
  creativeId : Option String
  dealId : Option String
  currency : String
  netRevenue : Bool
  ttl : Nat
  width : Option Nat
  height : Option Nat
  vastUrl : Option String
  descriptionUrl : Option String
  ad : Option String
  nativeOut : Option NativeOut
  adResponse : Option AdResponse
  renderer : Option RendererHandle
  mediaType : Option String
deriving DecidableEq, Repr

/-- Modelled from the spec: `utils.createTrackPixelHtml` of Prebid's shared
`src/utils.js`, not part of this tree — an appended pixel tag referencing
the tracker URL; an empty URL yields nothing. -/
def createTrackPixelHtml (url : String) : String :=
  if url == "" then "" else "<img src=" ++ url ++ ">"

/-- `newBid` (source lines 202-267), in `Except String` for the `TypeError`s
the source can raise, paired with the list of messages it logs.
Branching follows the source: a video payload wins, else a native payload,
else the banner branch dereferences `rtb.banner` unconditionally.
In the video branch, a truthy `renderer_url` triggers the `adResponse`
mutation, which reads `ads[0].rtb.video` and so throws when `ads` is absent
or empty or `ads[0]` has no `rtb` object.  In the native branch,
`nativeAd.link.url` throws when `link` is absent.  The banner tracking-pixel
step is wrapped in `try/catch`: a missing `trackers[0]` chain logs
`Error appending tracking pixel` and leaves the markup untouched; an empty
`impression_urls` passes `undefined` to `createTrackPixelHtml`, which
returns the empty string. -/
def newBid (serverBid : ServerTag) (rtbBid : Ad) :
    Except String (Bid × List String) :=
  let base : Bid :=
    { requestId := serverBid.uuid
      cpm := rtbBid.cpm
      creativeId := rtbBid.creative_id
      dealId := rtbBid.deal_id
      currency := "USD"
      netRevenue := true
      ttl := 300
      width := none, height := none, vastUrl := none, descriptionUrl := none
      ad := none, nativeOut := none, adResponse := none, renderer := none
      mediaType := none }
  match rtbBid.rtb with
  | none => .error "TypeError: cannot read properties of undefined (rtb)"
  | some rtb =>
    match rtb.video with
    | some v =>
      let bid :=
        { base with
          width := some v.player_width
          height := some v.player_height
          vastUrl := some v.asset_url
          descriptionUrl := some v.asset_url
          ttl := 3600 }
      if truthyStr rtbBid.renderer_url then
        match serverBid.ads with
        | none => .error "TypeError: cannot read properties of undefined (ads)"
        | some ads =>
          match ads.head? with
          | none =>
            .error "TypeError: cannot set properties of undefined (video)"
          | some ad0 =>
            match ad0.rtb with
            | none =>
              .error "TypeError: cannot read properties of undefined (video)"
            | some rtb0 =>
              .ok ({ bid with
                      adResponse :=
                        some { tag := serverBid, ad := ad0, adVideo := rtb0.video }
                      renderer := some (newRenderer rtbBid) }, [])
      else
        .ok (bid, [])
    | none =>
      match rtb.nativeP with
      | some nativeAd =>
        match nativeAd.link with
        | none => .error "TypeError: cannot read properties of undefined (link)"
        | some link =>
          .ok ({ base with
                  nativeOut :=
                    some { title := nativeAd.title
                           body := nativeAd.desc
                           cta := nativeAd.ctatext
                           sponsoredBy := nativeAd.sponsored
                           image :=
                             { url := nativeAd.main_img.bind NativeImg.url
                               height := nativeAd.main_img.bind NativeImg.height
                               width := nativeAd.main_img.bind NativeImg.width }
                           icon :=
                             { url := nativeAd.icon.bind NativeImg.url
                               height := nativeAd.icon.bind NativeImg.height
                               width := nativeAd.icon.bind NativeImg.width }
                           clickUrl := link.url
                           clickTrackers := link.click_trackers
                           impressionTrackers := nativeAd.impression_trackers } },
               [])
      | none =>
        match rtb.banner with
        | none => .error "TypeError: cannot read properties of undefined (banner)"
        | some banner =>
          let bid :=
            { base with
              width := some banner.width
              height := some banner.height
              ad := some banner.content }
          match rtb.trackers with
          | some (t :: _) =>
            .ok ({ bid with
                    ad := some (banner.content ++
                      createTrackPixelHtml (t.impression_urls.headD "")) }, [])
          | _ => .ok (bid, ["Error appending tracking pixel"])

/-- `parseMediaType` (source lines 431-440). -/
def parseMediaType (rtbBid : Ad) : String :=
  if rtbBid.ad_type == "video" then "video"
  else if rtbBid.ad_type == "native" then "native"
  else "banner"

/-- One iteration of the `serverResponse.tags.forEach` loop of
`interpretResponse` (source lines 114-123): locate the first RtbBid
candidate; if found, and its `cpm !== 0` and its `ad_type` is supported,
build a normalized bid, stamp its `mediaType`, and emit it. -/
def tagStep (tag : ServerTag) : Except String (List Bid × List String) :=
  match getRtbBid tag with
  | none => .ok ([], [])
  | some rtbBid =>
    if rtbBid.cpm != 0 && SUPPORTED_AD_TYPES.contains rtbBid.ad_type then
      match newBid tag rtbBid with
      | .error e => .error e
      | .ok (bid, logs) =>
        .ok ([{ bid with mediaType := some (parseMediaType rtbBid) }], logs)
    else
      .ok ([], [])

/-- The `forEach` loop over all tags, concatenating emitted bids and logs;
an exception aborts the loop. -/
def interpretTags : List ServerTag → Except String (List Bid × List String)
  | [] => .ok ([], [])
  | t :: ts =>
    match tagStep t with
    | .error e => .error e
    | .ok (bs, ls) =>
      match interpretTags ts with
      | .error e => .error e
      | .ok (bs2, ls2) => .ok (bs ++ bs2, ls ++ ls2)

/-- `spec.interpretResponse` (source lines 103-126).  When the body is
absent or its `error` field is truthy, one error line
`in response for <bidderCode> adapter[: <error>]` is logged and the empty
bid list is returned; otherwise the tags (when present) are folded by
`interpretTags`. -/
def interpretResponse (body : Option ResponseBody)
    (bidderRequest : BidderRequest) : Except String (List Bid × List String) :=
  match body with
  | none =>
    .ok ([], ["in response for " ++ bidderRequest.bidderCode ++ " adapter"])
  | some b =>
    if truthyStr b.error then
      .ok ([], ["in response for " ++ bidderRequest.bidderCode ++ " adapter: "
                 ++ b.error.getD ""])
    else
      match b.tags with
      | none => .ok ([], [])
      | some tags => interpretTags tags

/-- A JS scalar-or-list value of the framework keyword map handed to
`getKeywords`. -/
inductive JsVal where
  | str : String → JsVal
  | num : Int → JsVal
  | boolean : Bool → JsVal
  | null : JsVal
  | arr : List JsVal → JsVal

/-- Modelled from the spec: `utils.getValueString` of Prebid's shared
`src/utils.js`, not part of this tree — the stringification policy: strings
pass through, numbers are stringified, and any other value (boolean, null,
nested list) coerces to nothing (with a warning logged). -/
def getValueString : JsVal → Option String
  | .str s => some s
  | .num n => some (toString n)
  | _ => none

/-- One entry of the ut-compatible keyword list built by `getKeywords`. -/
structure KeywordEntry where
  key : String
  value : List String
deriving DecidableEq, Repr

/-- The push of the array branch of `getKeywords` (source lines 177-180):
the coerced element is pushed only when truthy — `if (val)` discards both an
undefined coercion and the empty string. -/
def pushedKeywordVal (v : JsVal) : Option String :=
  match getValueString v with
  | some s => if s != "" then some s else none
  | none => none

/-- The body of the `utils._each` callback of `getKeywords` (source lines
174-191) for one `(key, value)` pair: an array value keeps its elements
whose coercion is truthy and always yields an entry; a scalar value yields
a singleton entry when it coerces to a string — the `isStr` test, which the
empty string also passes — and otherwise yields nothing (`return` skips the
push). -/
def keywordEntry : String × JsVal → Option KeywordEntry
  | (k, .arr vs) => some { key := k, value := vs.filterMap pushedKeywordVal }
  | (k, v) =>
    match getValueString v with
    | some s => some { key := k, value := [s] }
    | none => none

/-- `getKeywords` (source lines 171-194): the ordered list of entries pushed
by the `_each` loop.  The keyword map is embedded as its ordered key/value
pairs. -/
def getKeywords (keywords : List (String × JsVal)) : List KeywordEntry :=
  keywords.filterMap keywordEntry

/-- A JS value inside a native asset spec object (the sub-params such as
`required: true` or `sizes: [{}]`). -/
inductive NVal where
  | bool : Bool → NVal
  | str : String → NVal
  | num : Int → NVal
  | objList : List (List (String × NVal)) → NVal

/-- A JS object of native sub-params, as its ordered key/value pairs. -/
abbrev Smap := List (String × NVal)

/-- `Object.assign({}, a, b)`: the result holds every key of `a` or `b`,
with the value from `b` on key collisions. -/
def objAssign (a b : Smap) : Smap :=
  a.filter (fun p => !(b.any fun q => q.1 == p.1)) ++ b

/-- The structured form of a `NATIVE_MAPPING` entry
(`{serverName, requiredParams, minimumParams}`). -/
structure NativeMapEntry where
  serverName : String
  requiredParams : Smap
  minimumParams : Smap

/-- A value of the `NATIVE_MAPPING` table: either a plain rename string or a
structured entry. -/
inductive MappingVal where
  | name : String → MappingVal
  | entry : NativeMapEntry → MappingVal

/-- `NATIVE_MAPPING` (source lines 14-28). -/
def NATIVE_MAPPING : String → Option MappingVal
  | "body" => some (.name "description")
  | "cta" => some (.name "ctatext")
  | "image" =>
    some (.entry { serverName := "main_image"
                   requiredParams := [("required", .bool true)]
                   minimumParams := [("sizes", .objList [[]])] })
  | "icon" =>
    some (.entry { serverName := "icon"
                   requiredParams := [("required", .bool true)]
                   minimumParams := [("sizes", .objList [[]])] })
  | "sponsoredBy" => some (.name "sponsored_by")
  | _ => none

/-- The wire-level key chosen by `buildNativeRequest` (source lines
385-388): `(NATIVE_MAPPING[key] && NATIVE_MAPPING[key].serverName) ||
NATIVE_MAPPING[key] || key`. -/
def mappedKey (key : String) : String :=
  match NATIVE_MAPPING key with
  | some (.entry e) => e.serverName
  | some (.name n) => n
  | none => key

/-- The value stored by `buildNativeRequest` for one asset key (source
lines 391-407): `Object.assign({}, requiredParams, params[key])`, and, when
the mapping carries both required and minimum params and the adunit keys
minus the required keys leave nothing, a further
`Object.assign({}, ..., minimumParams)`. -/
def nativeEntryVal (key : String) (val : Smap) : Smap :=
  match NATIVE_MAPPING key with
  | some (.entry e) =>
    let base := objAssign e.requiredParams val
    let adunitKeys := val.map Prod.fst
    let requiredKeys := e.requiredParams.map Prod.fst
    let remaining := adunitKeys.filter fun k => !(requiredKeys.contains k)
    if remaining.isEmpty then objAssign base e.minimumParams else base
  | _ => objAssign [] val

/-- `request[requestKey] = v` on a JS object embedded as ordered pairs: an
existing key is overwritten in place, a new key is appended. -/
def setKey (m : List (String × Smap)) (k : String) (v : Smap) :
    List (String × Smap) :=
  if m.any (fun p => p.1 == k) then
    m.map fun p => if p.1 == k then (k, v) else p
  else
    m ++ [(k, v)]

/-- Lookup on a JS object embedded as ordered pairs. -/
def lookupKey (m : List (String × Smap)) (k : String) : Option Smap :=
  (m.find? fun p => p.1 == k).map Prod.snd

/-- `buildNativeRequest` (source lines 375-411): fold the
`Object.keys(params).forEach` loop, storing `nativeEntryVal` under
`mappedKey` for each asset key in order. -/
def buildNativeRequest (params : List (String × Smap)) :
    List (String × Smap) :=
  params.foldl (fun req kv => setKey req (mappedKey kv.1) (nativeEntryVal kv.1 kv.2)) []

/-- The payload shape that `newBid` dereferences without raising: the ad
carries an `rtb` object and, following the branch order of the source, a
video payload (whose renderer path additionally reads `ads[0].rtb` when
`renderer_url` is truthy), else a native payload with a `link` object, else
a banner payload. -/
def adWellFormed (tag : ServerTag) (ad : Ad) : Bool :=
  match ad.rtb with
  | none => false
  | some rtb =>
    match rtb.video with
    | some _ =>
      if truthyStr ad.renderer_url then
        match tag.ads with
        | some (ad0 :: _) => ad0.rtb.isSome
        | _ => false
      else true
    | none =>
      match rtb.nativeP with
      | some n => n.link.isSome
      | none => rtb.banner.isSome

/-- A tag on which the `forEach` body of `interpretResponse` cannot raise:
either no RtbBid candidate is surfaced, or the candidate is filtered out by
the cpm/ad-type gate, or its payload is well-formed for `newBid`. -/
def tagWellFormed (tag : ServerTag) : Bool :=
  match getRtbBid tag with
  | none => true
  | some ad =>
    !(ad.cpm != 0 && SUPPORTED_AD_TYPES.contains ad.ad_type) ||
      adWellFormed tag ad

/-- Whether an `Except` computation returned normally. -/
def exceptOk {α β : Type} : Except α β → Bool
  | .ok _ => true
  | .error _ => false

theorem truthyStr_iff (o : Option String) :
    truthyStr o = true ↔ ∃ s, o = some s ∧ s ≠ "" := by
  cases o <;> simp [truthyStr]

/-- C1: for every BidRequest `r`, `isBidRequestValid` returns `true` iff
`r.params.inventoryCode` is non-empty, or both `r.params.member` and
`r.params.invCode` are non-empty; the embedding is a pure predicate, so the
function has no effect on `r`. -/
theorem isBidRequestValid_iff (bid : TLBidRequest) :
    isBidRequestValid bid = true ↔
      ((∃ s, bid.params.inventoryCode = some s ∧ s ≠ "") ∨
       ((∃ s, bid.params.member = some s ∧ s ≠ "") ∧
        (∃ s, bid.params.invCode = some s ∧ s ≠ ""))) := by
  simp only [isBidRequestValid, Bool.or_eq_true, Bool.and_eq_true, truthyStr_iff]

/-- C6 counterexample: an environment where the ActiveX probe throws but the
`navigator.mimeTypes` fallback reports an enabled Flash plugin makes
`isFlashEnabled` report `1`, so a probe exception is not always treated as
Flash unsupported. -/
theorem isFlashEnabled_probe_throw_cex :
    (FlashEnv.mk none true true true).activeXResult = none ∧
    isFlashEnabled (FlashEnv.mk none true true true) = 1 :=
  ⟨rfl, rfl⟩

/-- C6 (amended): when the ActiveX probe throws, the exception is caught and
the flag is `0` exactly when the `navigator.mimeTypes` fallback does not
report an enabled `application/x-shockwave-flash` plugin. -/
theorem isFlashEnabled_probe_throw (env : FlashEnv)
    (h : env.activeXResult = none) :
    isFlashEnabled env = 0 ↔
      ¬(env.mimeTypesPresent = true ∧ env.swfMimeTypeDefined = true ∧
        env.swfEnabledPlugin = true) := by
  obtain ⟨ax, m, d, e⟩ := env
  simp only at h
  subst h
  cases m <;> cases d <;> cases e <;> simp [isFlashEnabled]

theorem isFlashEnabled_probe_throw_witness :
    (isFlashEnabled (FlashEnv.mk none true true false) = 0 ↔
      ¬((FlashEnv.mk none true true false).mimeTypesPresent = true ∧
        (FlashEnv.mk none true true false).swfMimeTypeDefined = true ∧
        (FlashEnv.mk none true true false).swfEnabledPlugin = true)) ∧
    isFlashEnabled (FlashEnv.mk none true true false) = 0 :=
  ⟨isFlashEnabled_probe_throw (FlashEnv.mk none true true false) rfl, rfl⟩

/-- C5: on the BidRequest list
`[{sizes:[[300,250]], params:{inventoryCode:'abc'}, floor:1.5}]` the built
URL contains `inv_code=abc`, `floor=1.5` and `size=300x250`, has pairwise
distinct query-parameter keys and no trailing `&`; and with an empty floor
the `floor` parameter is not emitted at all. -/
theorem buildRequests_concrete :
    (∃ url,
      buildRequests ⟨some true, false, false, false⟩ ⟨"https:", ""⟩
        [⟨⟨some "abc", none, none, some "1.5"⟩, [(300, 250)]⟩] = some url ∧
      strHasSub url "inv_code=abc" = true ∧
      strHasSub url "floor=1.5" = true ∧
      strHasSub url "size=300x250" = true ∧
      lastCharIs url '&' = false ∧
      (queryKeys url).Nodup) ∧
    (∃ url,
      buildRequests ⟨some true, false, false, false⟩ ⟨"https:", ""⟩
        [⟨⟨some "abc", none, none, none⟩, [(300, 250)]⟩] = some url ∧
      strHasSub url "floor=" = false) := by
  constructor
  · refine ⟨"https://tlx.3lift.com/header/auction?lib=prebid&v=$prebid.version$&inv_code=abc&floor=1.5&fe=1&size=300x250",
      rfl, ?_, ?_, ?_, ?_, ?_⟩ <;> decide
  · refine ⟨"https://tlx.3lift.com/header/auction?lib=prebid&v=$prebid.version$&inv_code=abc&fe=1&size=300x250",
      rfl, ?_⟩
    decide

/-- C4: for every response whose body is absent or whose `error` field is
truthy, `interpretResponse` returns the empty bid list together with exactly
one log entry. -/
theorem interpretResponse_error_logs_once (body : Option ResponseBody)
    (br : BidderRequest)
    (h : body = none ∨ ∃ b, body = some b ∧ truthyStr b.error = true) :
    ∃ logs, interpretResponse body br = .ok ([], logs) ∧ logs.length = 1 := by
  rcases h with h | ⟨b, hb, he⟩
  · subst h
    exact ⟨_, rfl, rfl⟩
  · subst hb
    refine ⟨["in response for " ++ br.bidderCode ++ " adapter: " ++ b.error.getD ""],
      ?_, rfl⟩
    simp [interpretResponse, he]

theorem interpretResponse_error_logs_once_witness :
    ∃ logs,
      interpretResponse (some ⟨some "no fill", none⟩) ⟨"triplelift"⟩ =
        .ok ([], logs) ∧ logs.length = 1 :=
  interpretResponse_error_logs_once (some ⟨some "no fill", none⟩) ⟨"triplelift"⟩
    (Or.inr ⟨⟨some "no fill", none⟩, rfl, by decide⟩)

/-- C2: a NormalizedBid is produced from a tag's first RtbBid candidate only
if its cpm is nonzero and its ad type is one of banner/video/native: a
candidate with `cpm = 0` or an unsupported `ad_type` makes the loop body of
`interpretResponse` emit nothing, and whenever the loop body emits a bid the
candidate passed both checks. -/
theorem tagStep_cpm_adtype_gate (tag : ServerTag) :
    (∀ ad, getRtbBid tag = some ad →
      ad.cpm = 0 ∨ ad.ad_type ∉ SUPPORTED_AD_TYPES →
      tagStep tag = .ok ([], [])) ∧
    (∀ bids logs, tagStep tag = .ok (bids, logs) → bids ≠ [] →
      ∃ ad, getRtbBid tag = some ad ∧ ad.cpm ≠ 0 ∧
        ad.ad_type ∈ SUPPORTED_AD_TYPES) := by
  constructor
  · intro ad had hbad
    simp [tagStep, had]
    intro h1 h2
    rcases hbad with h | h
    · exact absurd h h1
    · exact absurd h2 h
  · intro bids logs hstep hne
    cases hg : getRtbBid tag with
    | none =>
      simp [tagStep, hg] at hstep
      exact absurd hstep.1 hne
    | some ad =>
      by_cases hc : ¬ad.cpm = 0 ∧ ad.ad_type ∈ SUPPORTED_AD_TYPES
      · exact ⟨ad, rfl, hc.1, hc.2⟩
      · simp [tagStep, hg] at hstep
        rw [if_neg hc] at hstep
        simp at hstep
        exact absurd hstep.1 hne

theorem tagStep_cpm_adtype_gate_witness :
    tagStep ⟨some "u1",
        some [⟨some ⟨none, none, none, none⟩, 0, none, none, "banner", none, none⟩]⟩ =
      .ok ([], []) ∧
    ∃ ad,
      getRtbBid ⟨some "u2",
          some [⟨some ⟨none, none, some ⟨300, 250, "<div>ad</div>"⟩, none⟩, 1, none,
                 none, "banner", none, none⟩]⟩ = some ad ∧
      ad.cpm ≠ 0 ∧ ad.ad_type ∈ SUPPORTED_AD_TYPES :=
  ⟨(tagStep_cpm_adtype_gate _).1 _ rfl (Or.inl rfl),
   (tagStep_cpm_adtype_gate _).2 _ _ rfl (List.cons_ne_nil _ _)⟩

theorem exceptOk_iff {α β : Type} (e : Except α β) :
    exceptOk e = true ↔ ∃ r, e = .ok r := by
  cases e <;> simp [exceptOk]

theorem newBid_ok_of_adWellFormed (tag : ServerTag) (ad : Ad)
    (h : adWellFormed tag ad = true) : exceptOk (newBid tag ad) = true := by
  cases hr : ad.rtb with
  | none => simp [adWellFormed, hr] at h
  | some rtb =>
    cases hv : rtb.video with
    | some v =>
      by_cases hru : truthyStr ad.renderer_url = true
      · simp only [adWellFormed, hr, hv, hru, if_true] at h
        cases hads : tag.ads with
        | none => rw [hads] at h; simp at h
        | some ads =>
          rw [hads] at h
          cases ads with
          | nil => simp at h
          | cons ad0 rest =>
            simp only at h
            cases ha0 : ad0.rtb with
            | none => rw [ha0] at h; simp at h
            | some rtb0 => simp [newBid, hr, hv, hru, hads, ha0, exceptOk]
      · simp [newBid, hr, hv, hru, exceptOk]
    | none =>
      cases hn : rtb.nativeP with
      | some nativeAd =>
        simp only [adWellFormed, hr, hv, hn] at h
        cases hl : nativeAd.link with
        | none => rw [hl] at h; simp at h
        | some link => simp [newBid, hr, hv, hn, hl, exceptOk]
      | none =>
        simp only [adWellFormed, hr, hv, hn] at h
        cases hb : rtb.banner with
        | none => rw [hb] at h; simp at h
        | some banner =>
          cases ht : rtb.trackers with
          | none => simp [newBid, hr, hv, hn, hb, ht, exceptOk]
          | some ts =>
            cases ts <;> simp [newBid, hr, hv, hn, hb, ht, exceptOk]

theorem tagStep_ok_of_tagWellFormed (tag : ServerTag)
    (h : tagWellFormed tag = true) : exceptOk (tagStep tag) = true := by
  cases hg : getRtbBid tag with
  | none => simp [tagStep, hg, exceptOk]
  | some ad =>
    simp only [tagWellFormed, hg, Bool.or_eq_true, Bool.not_eq_true] at h
    by_cases hc : (ad.cpm != 0 && SUPPORTED_AD_TYPES.contains ad.ad_type) = true
    · have hwf : adWellFormed tag ad = true := by
        rcases h with h | h
        · rw [hc] at h; simp at h
        · exact h
      have hbo := (exceptOk_iff (newBid tag ad)).mp (newBid_ok_of_adWellFormed tag ad hwf)
      obtain ⟨⟨bid, logs⟩, hok⟩ := hbo
      have hcp : ¬ad.cpm = 0 ∧ ad.ad_type ∈ SUPPORTED_AD_TYPES := by
        rw [Bool.and_eq_true] at hc
        exact ⟨by simpa using hc.1, by simpa using hc.2⟩
      simp [tagStep, hg, hcp, hok, exceptOk]
    · simp only [tagStep, hg]
      rw [if_neg hc]
      simp [exceptOk]

theorem interpretTags_ok (ts : List ServerTag)
    (h : ∀ t ∈ ts, tagWellFormed t = true) :
    exceptOk (interpretTags ts) = true := by
  induction ts with
  | nil => simp [interpretTags, exceptOk]
  | cons t rest ih =>
    have ht := tagStep_ok_of_tagWellFormed t (h t (List.mem_cons_self t rest))
    obtain ⟨⟨bs, ls⟩, hok⟩ := (exceptOk_iff _).mp ht
    have hrest := ih fun t' ht' => h t' (List.mem_cons_of_mem t ht')
    obtain ⟨⟨bs2, ls2⟩, hok2⟩ := (exceptOk_iff _).mp hrest
    simp [interpretTags, hok, hok2, exceptOk]

/-- C3 counterexample: a response whose surfaced RtbBid carries an `rtb`
object holding none of the three payloads drives `newBid` into the banner
branch, where reading `rtb.banner.width` raises a `TypeError` that
propagates out of `interpretResponse`. -/
theorem interpretResponse_throws_cex :
    ∃ e,
      interpretResponse
        (some ⟨none,
          some [⟨some "u",
            some [⟨some ⟨none, none, none, none⟩, 1, none, none, "banner", none,
                   none⟩]⟩]⟩)
        ⟨"triplelift"⟩ = .error e :=
  ⟨_, rfl⟩

/-- C3 (amended): `interpretResponse` returns a possibly-empty list without
raising for every body that is absent, carries a truthy error field, or
whose tags are all well-formed (each surfaced RtbBid carries the payload
fields its creative branch dereferences); outside that shape a `TypeError`
can propagate to the caller, while the non-essential tracking-pixel step
always degrades to a log entry. -/
theorem interpretResponse_no_throw (body : Option ResponseBody)
    (br : BidderRequest)
    (h : ∀ b, body = some b → ∀ ts, b.tags = some ts →
      ∀ t ∈ ts, tagWellFormed t = true) :
    ∃ res, interpretResponse body br = .ok res := by
  rw [← exceptOk_iff]
  cases body with
  | none => simp [interpretResponse, exceptOk]
  | some b =>
    by_cases he : truthyStr b.error = true
    · simp [interpretResponse, he, exceptOk]
    · rw [Bool.not_eq_true] at he
      cases hts : b.tags with
      | none => simp [interpretResponse, he, hts, exceptOk]
      | some ts =>
        have := interpretTags_ok ts (h b rfl ts hts)
        simpa [interpretResponse, he, hts] using this

theorem interpretResponse_no_throw_witness :
    ∃ res,
      interpretResponse
        (some ⟨none,
          some [⟨some "u1",
                  some [⟨some ⟨none, none, none, none⟩, 0, none, none, "banner",
                         none, none⟩]⟩,
                ⟨some "u2",
                  some [⟨some ⟨none, none, some ⟨300, 250, "<div>ad</div>"⟩,
                           none⟩, 1, none, none, "banner", none, none⟩]⟩]⟩)
        ⟨"triplelift"⟩ = .ok res :=
  interpretResponse_no_throw _ ⟨"triplelift"⟩ (by decide)

/-- C7: a video RtbBid with player dimensions 640x480, asset url
`http://v.example/ad.vast` and a falsy renderer url maps to a normalized
bid with width 640, height 480, ttl 3600, vastUrl and descriptionUrl both
equal to the asset url, and no renderer or adResponse attached. -/
theorem newBid_video_no_renderer (serverBid : ServerTag) (ad : Ad) (rtb : Rtb)
    (h1 : ad.rtb = some rtb)
    (h2 : rtb.video = some ⟨640, 480, "http://v.example/ad.vast"⟩)
    (h3 : truthyStr ad.renderer_url = false) :
    ∃ bid logs, newBid serverBid ad = .ok (bid, logs) ∧
      bid.width = some 640 ∧ bid.height = some 480 ∧ bid.ttl = 3600 ∧
      bid.vastUrl = some "http://v.example/ad.vast" ∧
      bid.descriptionUrl = some "http://v.example/ad.vast" ∧
      bid.renderer = none ∧ bid.adResponse = none := by
  refine ⟨{ requestId := serverBid.uuid, cpm := ad.cpm,
            creativeId := ad.creative_id, dealId := ad.deal_id,
            currency := "USD", netRevenue := true, ttl := 3600,
            width := some 640, height := some 480,
            vastUrl := some "http://v.example/ad.vast",
            descriptionUrl := some "http://v.example/ad.vast",
            ad := none, nativeOut := none, adResponse := none,
            renderer := none, mediaType := none }, [],
          ?_, rfl, rfl, rfl, rfl, rfl, rfl, rfl⟩
  simp [newBid, h1, h2, h3]

theorem newBid_video_no_renderer_witness :
    ∃ bid logs,
      newBid ⟨some "u",
          some [⟨some ⟨some ⟨640, 480, "http://v.example/ad.vast"⟩, none, none,
                   none⟩, 1, none, none, "video", none, none⟩]⟩
        ⟨some ⟨some ⟨640, 480, "http://v.example/ad.vast"⟩, none, none, none⟩,
         1, none, none, "video", none, none⟩ = .ok (bid, logs) ∧
      bid.width = some 640 ∧ bid.height = some 480 ∧ bid.ttl = 3600 ∧
      bid.vastUrl = some "http://v.example/ad.vast" ∧
      bid.descriptionUrl = some "http://v.example/ad.vast" ∧
      bid.renderer = none ∧ bid.adResponse = none :=
  newBid_video_no_renderer _ _ _ rfl rfl rfl

/-- C10: for a video RtbBid, renderer attachment depends only on
`renderer_url`: when it is falsy, the produced bid carries no renderer and
no adResponse whatever `renderer_id` is; when it is truthy, every bid the
mapping produces carries a renderer handle recording the bid's renderer id
and url — also when `renderer_id` is absent — and an adResponse whose `ad`
field is the tag's first `ads` entry with that entry's `rtb.video`
duplicated onto its `video` field. -/
theorem newBid_renderer_attachment (serverBid : ServerTag) (ad : Ad)
    (rtb : Rtb) (v : VideoPayload)
    (h1 : ad.rtb = some rtb) (h2 : rtb.video = some v) :
    (truthyStr ad.renderer_url = false →
      ∃ bid logs, newBid serverBid ad = .ok (bid, logs) ∧
        bid.renderer = none ∧ bid.adResponse = none) ∧
    (truthyStr ad.renderer_url = true →
      ∀ bid logs, newBid serverBid ad = .ok (bid, logs) →
        bid.renderer = some ⟨ad.renderer_id, ad.renderer_url⟩ ∧
        ∃ ads ad0 rtb0, serverBid.ads = some ads ∧ ads.head? = some ad0 ∧
          ad0.rtb = some rtb0 ∧
          bid.adResponse = some ⟨serverBid, ad0, rtb0.video⟩) := by
  constructor
  · intro h3
    refine ⟨{ requestId := serverBid.uuid, cpm := ad.cpm,
              creativeId := ad.creative_id, dealId := ad.deal_id,
              currency := "USD", netRevenue := true, ttl := 3600,
              width := some v.player_width, height := some v.player_height,
              vastUrl := some v.asset_url, descriptionUrl := some v.asset_url,
              ad := none, nativeOut := none, adResponse := none,
              renderer := none, mediaType := none }, [], ?_, rfl, rfl⟩
    simp [newBid, h1, h2, h3]
  · intro h3 bid logs hok
    simp only [newBid, h1, h2, h3, if_true] at hok
    cases hads : serverBid.ads with
    | none => rw [hads] at hok; simp at hok
    | some ads =>
      rw [hads] at hok
      cases ads with
      | nil => simp at hok
      | cons ad0 rest =>
        simp only [List.head?] at hok
        cases ha0 : ad0.rtb with
        | none => rw [ha0] at hok; simp at hok
        | some rtb0 =>
          rw [ha0] at hok
          simp only [Except.ok.injEq, Prod.mk.injEq] at hok
          obtain ⟨hbid, hlogs⟩ := hok
          subst hbid
          exact ⟨by simp [newRenderer],
                 ad0 :: rest, ad0, rtb0, rfl, rfl, ha0, rfl⟩

theorem newBid_renderer_attachment_witness :
    (∃ bid logs,
      newBid ⟨some "u", none⟩
        ⟨some ⟨some ⟨640, 480, "http://v.example/ad.vast"⟩, none, none, none⟩,
         1, none, none, "video", some "rid", none⟩ = .ok (bid, logs) ∧
      bid.renderer = none ∧ bid.adResponse = none) ∧
    (∀ bid logs,
      newBid ⟨some "u2",
          some [⟨some ⟨some ⟨640, 480, "http://v.example/ad.vast"⟩, none, none,
                   none⟩, 1, none, none, "video", none,
                 some "http://r.example/r.js"⟩]⟩
        ⟨some ⟨some ⟨640, 480, "http://v.example/ad.vast"⟩, none, none, none⟩,
         1, none, none, "video", none, some "http://r.example/r.js"⟩ =
          .ok (bid, logs) →
      bid.renderer = some ⟨none, some "http://r.example/r.js"⟩ ∧
      ∃ ads ad0 rtb0,
        (ServerTag.mk (some "u2")
          (some [⟨some ⟨some ⟨640, 480, "http://v.example/ad.vast"⟩, none, none,
                    none⟩, 1, none, none, "video", none,
                  some "http://r.example/r.js"⟩])).ads = some ads ∧
        ads.head? = some ad0 ∧ ad0.rtb = some rtb0 ∧
        bid.adResponse =
          some ⟨⟨some "u2",
                 some [⟨some ⟨some ⟨640, 480, "http://v.example/ad.vast"⟩, none,
                          none, none⟩, 1, none, none, "video", none,
                        some "http://r.example/r.js"⟩]⟩, ad0, rtb0.video⟩) :=
  ⟨(newBid_renderer_attachment _ _ _ _ rfl rfl).1 rfl,
   (newBid_renderer_attachment _ _ _ _ rfl rfl).2 rfl⟩

theorem keywordEntry_key (p : String × JsVal) (e : KeywordEntry)
    (h : keywordEntry p = some e) : e.key = p.1 := by
  obtain ⟨k, v⟩ := p
  cases v with
  | str s => simp [keywordEntry, getValueString] at h; rw [← h]
  | num n => simp [keywordEntry, getValueString] at h; rw [← h]
  | boolean b => simp [keywordEntry, getValueString] at h
  | null => simp [keywordEntry, getValueString] at h
  | arr vs => simp [keywordEntry] at h; rw [← h]

theorem getKeywords_key_mem (kvs : List (String × JsVal)) (e : KeywordEntry)
    (he : e ∈ getKeywords kvs) : e.key ∈ kvs.map Prod.fst := by
  induction kvs with
  | nil => cases he
  | cons p ps ih =>
    simp only [getKeywords, List.filterMap_cons] at he
    rw [List.map_cons]
    cases hp : keywordEntry p with
    | none =>
      rw [hp] at he
      exact List.mem_cons_of_mem _ (ih he)
    | some e' =>
      rw [hp] at he
      rcases List.mem_cons.mp he with rfl | he'
      · rw [keywordEntry_key p e hp]
        exact List.mem_cons_self _ _
      · exact List.mem_cons_of_mem _ (ih he')

theorem getKeywords_mem_cons (p : String × JsVal) (ps : List (String × JsVal))
    (e : KeywordEntry) (he : e ∈ getKeywords ps) : e ∈ getKeywords (p :: ps) := by
  simp only [getKeywords, List.filterMap_cons]
  cases keywordEntry p with
  | none => exact he
  | some e' => exact List.mem_cons_of_mem _ he

/-- C8 counterexample: the keyword map `{a: [true]}` — a list value whose
only element coerces to nothing — still produces the entry
`{key: 'a', value: []}`, so an entry with an empty value list does appear
in the output. -/
theorem getKeywords_empty_value_cex :
    getKeywords [("a", JsVal.arr [JsVal.boolean true])] =
      [(⟨"a", []⟩ : KeywordEntry)] ∧
    ∃ e ∈ getKeywords [("a", JsVal.arr [JsVal.boolean true])], e.value = [] :=
  ⟨rfl, ⟨⟨"a", []⟩, by decide, rfl⟩⟩

/-- C8 (amended): over a keyword map with pairwise distinct keys,
`getKeywords` handles each binding as follows: a list value always yields an
entry holding the truthy coercions of its elements (possibly the empty
list); a scalar value that coerces to a string yields the singleton entry;
and a scalar value that coerces to nothing is dropped silently — no entry
with its key appears.  Only scalar entries whose value coerces to nothing
are dropped; list values can surface an entry with an empty value list. -/
theorem getKeywords_policy (kvs : List (String × JsVal))
    (hnd : (kvs.map Prod.fst).Nodup) (k : String) (v : JsVal)
    (hmem : (k, v) ∈ kvs) :
    (∃ vs, v = JsVal.arr vs ∧
      (⟨k, vs.filterMap pushedKeywordVal⟩ : KeywordEntry) ∈ getKeywords kvs) ∨
    ((∀ vs, v ≠ JsVal.arr vs) ∧
      ((∃ s, getValueString v = some s ∧
          (⟨k, [s]⟩ : KeywordEntry) ∈ getKeywords kvs) ∨
       (getValueString v = none ∧ ∀ e ∈ getKeywords kvs, e.key ≠ k))) := by
  induction kvs with
  | nil => cases hmem
  | cons p ps ih =>
    rw [List.map_cons, List.nodup_cons] at hnd
    rcases List.mem_cons.mp hmem with heq | hmem'
    · have hp : p = (k, v) := heq.symm
      subst hp
      cases v with
      | arr vs =>
        refine Or.inl ⟨vs, rfl, ?_⟩
        simp only [getKeywords, List.filterMap_cons, keywordEntry]
        exact List.mem_cons_self _ _
      | str s =>
        refine Or.inr ⟨fun vs h => JsVal.noConfusion h, Or.inl ⟨s, rfl, ?_⟩⟩
        simp only [getKeywords, List.filterMap_cons, keywordEntry, getValueString]
        exact List.mem_cons_self _ _
      | num n =>
        refine Or.inr ⟨fun vs h => JsVal.noConfusion h,
          Or.inl ⟨toString n, rfl, ?_⟩⟩
        simp only [getKeywords, List.filterMap_cons, keywordEntry, getValueString]
        exact List.mem_cons_self _ _
      | boolean b =>
        refine Or.inr ⟨fun vs h => JsVal.noConfusion h, Or.inr ⟨rfl, ?_⟩⟩
        intro e he hk
        simp only [getKeywords, List.filterMap_cons, keywordEntry,
          getValueString] at he
        exact hnd.1 (hk ▸ getKeywords_key_mem ps e he)
      | null =>
        refine Or.inr ⟨fun vs h => JsVal.noConfusion h, Or.inr ⟨rfl, ?_⟩⟩
        intro e he hk
        simp only [getKeywords, List.filterMap_cons, keywordEntry,
          getValueString] at he
        exact hnd.1 (hk ▸ getKeywords_key_mem ps e he)
    · have hkp : p.1 ≠ k := fun h =>
        hnd.1 (by rw [h]; exact List.mem_map_of_mem Prod.fst hmem')
      rcases ih hnd.2 hmem' with ⟨vs, hv, hmem2⟩ | ⟨hnar, hsc⟩
      · exact Or.inl ⟨vs, hv, getKeywords_mem_cons p ps _ hmem2⟩
      · refine Or.inr ⟨hnar, ?_⟩
        rcases hsc with ⟨s, hs, hmem2⟩ | ⟨hs, hall⟩
        · exact Or.inl ⟨s, hs, getKeywords_mem_cons p ps _ hmem2⟩
        · refine Or.inr ⟨hs, ?_⟩
          intro e he
          simp only [getKeywords, List.filterMap_cons] at he
          cases hpe : keywordEntry p with
          | none =>
            rw [hpe] at he
            exact hall e he
          | some e' =>
            rw [hpe] at he
            rcases List.mem_cons.mp he with rfl | he'
            · rw [keywordEntry_key p e hpe]
              exact hkp
            · exact hall e he'

theorem getKeywords_policy_witness :
    (∃ vs, JsVal.boolean true = JsVal.arr vs ∧
      (⟨"b", vs.filterMap pushedKeywordVal⟩ : KeywordEntry) ∈
        getKeywords [("a", JsVal.str "x"), ("b", JsVal.boolean true),
                     ("c", JsVal.arr [JsVal.num 3, JsVal.null])]) ∨
    ((∀ vs, JsVal.boolean true ≠ JsVal.arr vs) ∧
      ((∃ s, getValueString (JsVal.boolean true) = some s ∧
          (⟨"b", [s]⟩ : KeywordEntry) ∈
            getKeywords [("a", JsVal.str "x"), ("b", JsVal.boolean true),
                         ("c", JsVal.arr [JsVal.num 3, JsVal.null])]) ∨
       (getValueString (JsVal.boolean true) = none ∧
        ∀ e ∈ getKeywords [("a", JsVal.str "x"), ("b", JsVal.boolean true),
                           ("c", JsVal.arr [JsVal.num 3, JsVal.null])],
          e.key ≠ "b"))) :=
  getKeywords_policy
    [("a", JsVal.str "x"), ("b", JsVal.boolean true),
     ("c", JsVal.arr [JsVal.num 3, JsVal.null])]
    (by decide) "b" (JsVal.boolean true)
    (List.mem_cons_of_mem _ (List.mem_cons_self _ _))

theorem setKey_append (m : List (String × Smap)) (k : String) (v : Smap)
    (h : ∀ q ∈ m, q.1 ≠ k) : setKey m k v = m ++ [(k, v)] := by
  unfold setKey
  have hany : m.any (fun p => p.1 == k) = false := by
    rw [List.any_eq_false]
    intro x hx
    simp [h x hx]
  simp [hany]

theorem buildNativeRequest_foldl (params : List (String × Smap))
    (acc : List (String × Smap))
    (hnd : (params.map fun p => mappedKey p.1).Nodup)
    (hdisj : ∀ p ∈ params, ∀ q ∈ acc, q.1 ≠ mappedKey p.1) :
    params.foldl
        (fun req kv => setKey req (mappedKey kv.1) (nativeEntryVal kv.1 kv.2))
        acc =
      acc ++ params.map fun kv => (mappedKey kv.1, nativeEntryVal kv.1 kv.2) := by
  induction params generalizing acc with
  | nil => simp
  | cons p ps ih =>
    rw [List.map_cons, List.nodup_cons] at hnd
    rw [List.foldl_cons,
      setKey_append acc (mappedKey p.1) _
        (fun q hq => hdisj p (List.mem_cons_self _ _) q hq),
      ih (acc ++ [(mappedKey p.1, nativeEntryVal p.1 p.2)]) hnd.2 ?_]
    · simp
    · intro p' hp' q hq
      rcases List.mem_append.mp hq with hq | hq
      · exact hdisj p' (List.mem_cons_of_mem _ hp') q hq
      · rcases List.mem_singleton.mp hq with rfl
        intro h
        apply hnd.1
        have h' : mappedKey p.1 = mappedKey p'.1 := h
        rw [h']
        exact List.mem_map_of_mem _ hp'

theorem lookupKey_map_nodup (params : List (String × Smap))
    (hnd : (params.map fun p => mappedKey p.1).Nodup)
    (k : String) (val : Smap) (hmem : (k, val) ∈ params) :
    lookupKey (params.map fun kv => (mappedKey kv.1, nativeEntryVal kv.1 kv.2))
        (mappedKey k) = some (nativeEntryVal k val) := by
  induction params with
  | nil => cases hmem
  | cons p ps ih =>
    rw [List.map_cons, List.nodup_cons] at hnd
    rcases List.mem_cons.mp hmem with heq | hmem'
    · have hp : p = (k, val) := heq.symm
      subst hp
      simp only [List.map_cons, lookupKey]
      rw [List.find?_cons_of_pos _ (by simp)]
      rfl
    · have hne : ¬(mappedKey p.1 == mappedKey k) = true := by
        intro h
        apply hnd.1
        rw [show mappedKey p.1 = mappedKey k from by simpa using h]
        exact List.mem_map_of_mem _ hmem'
      simp only [List.map_cons, lookupKey]
      rw [List.find?_cons_of_neg _ (by simpa using hne)]
      exact ih hnd.2 hmem'

theorem remaining_isEmpty_iff (val req : Smap) :
    ((val.map Prod.fst).filter
        fun k => !((req.map Prod.fst).contains k)).isEmpty = true ↔
      ∀ k ∈ val.map Prod.fst, k ∈ req.map Prod.fst := by
  rw [List.isEmpty_iff, List.filter_eq_nil_iff]
  constructor
  · intro h k hk
    have := h k hk
    simpa using this
  · intro h k hk
    simpa using h k hk

theorem nativeEntryVal_entry (key : String) (val : Smap) (e : NativeMapEntry)
    (he : NATIVE_MAPPING key = some (.entry e)) :
    nativeEntryVal key val =
      (if ∀ k ∈ val.map Prod.fst, k ∈ e.requiredParams.map Prod.fst
       then objAssign (objAssign e.requiredParams val) e.minimumParams
       else objAssign e.requiredParams val) := by
  simp only [nativeEntryVal, he]
  by_cases hall : ∀ k ∈ val.map Prod.fst, k ∈ e.requiredParams.map Prod.fst
  · rw [if_pos ((remaining_isEmpty_iff val e.requiredParams).mpr hall),
      if_pos hall]
  · rw [if_neg (fun hemp =>
        hall ((remaining_isEmpty_iff val e.requiredParams).mp hemp)),
      if_neg hall]

theorem nativeEntryVal_plain (key : String) (val : Smap)
    (h : NATIVE_MAPPING key = none ∨
      ∃ n, NATIVE_MAPPING key = some (MappingVal.name n)) :
    nativeEntryVal key val = val := by
  rcases h with h | ⟨n, h⟩ <;> simp [nativeEntryVal, h, objAssign]

/-- C9: over a native-asset spec map whose wire-level keys are pairwise
distinct, `buildNativeRequest` stores exactly one entry per asset key,
under the name chosen by the fixed mapping table (unmapped keys pass
through unchanged); for a structured mapping the stored entry is the
adunit spec merged over the required sub-params, with the minimum fallback
params additionally merged exactly when the adunit spec contributes no
keys beyond the required ones, and for a plain rename or an unmapped key
the adunit spec is stored as-is. -/
theorem buildNativeRequest_mapping (params : List (String × Smap))
    (hnd : (params.map fun p => mappedKey p.1).Nodup)
    (key : String) (val : Smap) (hmem : (key, val) ∈ params) :
    ∃ entry,
      lookupKey (buildNativeRequest params) (mappedKey key) = some entry ∧
      (∀ e, NATIVE_MAPPING key = some (MappingVal.entry e) →
        entry = (if ∀ k ∈ val.map Prod.fst, k ∈ e.requiredParams.map Prod.fst
                 then objAssign (objAssign e.requiredParams val) e.minimumParams
                 else objAssign e.requiredParams val)) ∧
      ((NATIVE_MAPPING key = none ∨
          ∃ n, NATIVE_MAPPING key = some (MappingVal.name n)) →
        entry = val) := by
  have hb : buildNativeRequest params =
      params.map fun kv => (mappedKey kv.1, nativeEntryVal kv.1 kv.2) := by
    have h0 := buildNativeRequest_foldl params [] hnd
      (by intro p hp q hq; cases hq)
    simpa [buildNativeRequest] using h0
  refine ⟨nativeEntryVal key val, ?_, ?_, ?_⟩
  · rw [hb]
    exact lookupKey_map_nodup params hnd key val hmem
  · intro e he
    exact nativeEntryVal_entry key val e he
  · intro h
    exact nativeEntryVal_plain key val h

theorem buildNativeRequest_mapping_witness :
    ∃ entry,
      lookupKey
        (buildNativeRequest
          [("body", [("len", NVal.num 90)]),
           ("image", [("required", NVal.bool false)]),
           ("custom", [("x", NVal.str "y")])])
        (mappedKey "image") = some entry ∧
      (∀ e, NATIVE_MAPPING "image" = some (MappingVal.entry e) →
        entry =
          (if ∀ k ∈ ([("required", NVal.bool false)] : Smap).map Prod.fst,
              k ∈ e.requiredParams.map Prod.fst
           then objAssign (objAssign e.requiredParams
                  [("required", NVal.bool false)]) e.minimumParams
           else objAssign e.requiredParams [("required", NVal.bool false)])) ∧
      ((NATIVE_MAPPING "image" = none ∨
          ∃ n, NATIVE_MAPPING "image" = some (MappingVal.name n)) →
        entry = [("required", NVal.bool false)]) :=
  buildNativeRequest_mapping
    [("body", [("len", NVal.num 90)]),
     ("image", [("required", NVal.bool false)]),
     ("custom", [("x", NVal.str "y")])]
    (by decide) "image" [("required", NVal.bool false)]
    (List.mem_cons_of_mem _ (List.mem_cons_self _ _))

end Triplelift
